import Mathlib

/-!
Verification development for the Gym Workout Logger
(`src/PythonChal/Gym_app/gymworkoutlog.py`).

The file shallowly embeds the persistence and aggregation core of the
program: the record schema, the CSV and SQLite load/append helpers
(`load_data`, `save_row`), the Monday-anchored week bucketing
(`add_week_columns`), the two inline `groupby` aggregations, and the
form-submit validation handler.  Dates are modelled as proleptic
Gregorian calendar dates with day-number arithmetic mirroring what
`pandas.to_datetime(...).dt.weekday` and `date - timedelta(weekday)`
compute; Python floats are modelled as rationals; Python exceptions as
an explicit error type.
-/

namespace GymLog

/-- A calendar date (proleptic Gregorian), as held by Python
`datetime.date` / a date-only pandas timestamp. -/
structure Date where
  year : Nat
  month : Nat
  day : Nat
deriving DecidableEq, Repr

/-- Number of days in a month of a given year (Gregorian leap rule). -/
def daysInMonth (y m : Nat) : Nat :=
  if m = 2 then
    if y % 4 = 0 ∧ (y % 100 ≠ 0 ∨ y % 400 = 0) then 29 else 28
  else if m = 4 ∨ m = 6 ∨ m = 9 ∨ m = 11 then 30
  else 31

/-- Validity of a calendar date, restricted to year ≥ 1 (the domain of
Python `datetime.date`). -/
def Date.valid (d : Date) : Prop :=
  1 ≤ d.year ∧ 1 ≤ d.month ∧ d.month ≤ 12 ∧ 1 ≤ d.day ∧ d.day ≤ daysInMonth d.year d.month

instance (d : Date) : Decidable d.valid := by
  unfold Date.valid; infer_instance

/-- Day number of a date: days elapsed since 0000-03-01 of the proleptic
Gregorian calendar (the standard civil-from-days correspondence used by
datetime libraries).  Total on valid dates. -/
def toDays (d : Date) : Nat :=
  let y := if d.month ≤ 2 then d.year - 1 else d.year
  let era := y / 400
  let yoe := y % 400
  let mp := (d.month + 9) % 12
  let doy := (153 * mp + 2) / 5 + d.day - 1
  let doe := yoe * 365 + yoe / 4 - yoe / 100 + doy
  era * 146097 + doe

/-- Inverse of `toDays`: the civil date of a day number. -/
def fromDays (z : Nat) : Date :=
  let era := z / 146097
  let doe := z % 146097
  let yoe := (doe - doe / 1460 + doe / 36524 - doe / 146096) / 365
  let doy := doe - (365 * yoe + yoe / 4 - yoe / 100)
  let mp := (5 * doy + 2) / 153
  let d := doy - (153 * mp + 2) / 5 + 1
  let m := if mp < 10 then mp + 3 else mp - 9
  ⟨if m ≤ 2 then yoe + era * 400 + 1 else yoe + era * 400, m, d⟩

/-- Weekday of a day number with Monday = 0 … Sunday = 6.  Day 0
(0000-03-01) is a Wednesday and 146097 is divisible by 7, hence the
offset 2. -/
def weekdayOfDays (n : Nat) : Nat := (n + 2) % 7

/-- Weekday of a date with Monday = 0 … Sunday = 6, as computed by
`pandas.Series.dt.weekday`. -/
def weekday (d : Date) : Nat := weekdayOfDays (toDays d)

/-- Left-pad the decimal representation of `n` with zeros to width `w`
(the behaviour of `strftime` field formatting). -/
def padNum (w n : Nat) : String :=
  let s := toString n
  String.mk (List.replicate (w - s.length) '0') ++ s

/-- `d.strftime("%Y-%m-%d")`: zero-padded ISO date string. -/
def isoFormat (d : Date) : String :=
  padNum 4 d.year ++ "-" ++ padNum 2 d.month ++ "-" ++ padNum 2 d.day

/-- The `week_start` column of `add_week_columns`:
`date - pd.to_timedelta(date.dt.weekday, unit="D")`.  A `datetime64`
column holds instants, so the value is modelled by its day number;
two `week_start` entries are equal exactly when these numbers are. -/
def weekStartDays (d : Date) : Nat := toDays d - weekday d

/-- The `week_label` column of `add_week_columns`:
`week_start.dt.strftime("%Y-%m-%d")` — the civil date of the
`week_start` instant, zero-padded. -/
def weekLabel (d : Date) : String := isoFormat (fromDays (weekStartDays d))

/-- A day number falling on a Monday. -/
def isMondayDay (n : Nat) : Prop := weekdayOfDays n = 0

/-- Two dates lie in the same Monday–Sunday span: some Monday starts a
seven-day window containing both.  (The spec's notion of a week
bucket's extent.) -/
def sameWeek (d1 d2 : Date) : Prop :=
  ∃ m : Nat, isMondayDay m ∧
    m ≤ toDays d1 ∧ toDays d1 < m + 7 ∧ m ≤ toDays d2 ∧ toDays d2 < m + 7

end GymLog

namespace GymLog

/-- One workout record, the seven-field logical schema (`COLUMNS`).
Python floats are modelled as rationals; the `date` field holds the
calendar date that the stored ISO string `workout_date.isoformat()`
denotes. -/
structure Row where
  date : Date
  exercise : String
  sets : Int
  reps : Int
  weight : ℚ
  weight_unit : String
  total_volume : ℚ
deriving DecidableEq, Repr

/-- Python exceptions that the storage helpers can raise.  The source
defines no error classes of its own; these are the library exceptions
its calls can surface.  `storageReadError` and `storageWriteError` are
the spec's taxonomy, carried so that claims about them are statable. -/
inductive PyError where
  | parserError          -- pandas.errors.ParserError from pd.read_csv
  | sqliteDatabaseError  -- sqlite3.DatabaseError on a corrupt database
  | ioError              -- OSError during a write
  | storageReadError     -- spec taxonomy only: never raised by the code
  | storageWriteError    -- spec taxonomy only: never raised by the code
deriving DecidableEq, Repr

/-- State of the CSV file at the configured path. -/
inductive FileState where
  | missing                     -- Path(path).exists() is False
  | corrupt                     -- present but pd.read_csv raises
  | csv (rows : List Row)       -- well-formed: header + one line per row
deriving DecidableEq, Repr

/-- State of the SQLite database file at the configured path. -/
inductive DbState where
  | missing                     -- no file: sqlite3.connect creates an empty db
  | noTable                     -- db exists but has no `workouts` table
  | corrupt                     -- file is not a database / unreadable
  | workouts (rows : List Row)  -- `workouts` table holding these rows
deriving DecidableEq, Repr

/-- A date-only value run through `pd.to_datetime`: a midnight
timestamp. -/
structure Timestamp where
  date : Date
  secondsOfDay : Nat
deriving DecidableEq, Repr

/-- `pd.to_datetime` on a date-only ISO string yields midnight of that
date. -/
def toDatetime (d : Date) : Timestamp := ⟨d, 0⟩

/-- The `.dt.date` normalization in `load_data`: discard time of day. -/
def normalizeDate (d : Date) : Date := (toDatetime d).date

/-- `df["date"] = pd.to_datetime(df["date"]).dt.date` applied to one row. -/
def normalizeRow (r : Row) : Row := { r with date := normalizeDate r.date }

/-- CSV branch of `load_data`: empty frame if the file does not exist,
otherwise `pd.read_csv` (raising on a corrupt file), then date
normalization. -/
def loadDataCsv : FileState → Except PyError (List Row)
  | .missing => .ok []
  | .corrupt => .error .parserError
  | .csv rows => .ok (rows.map normalizeRow)

/-- SQLite branch of `load_data`: `pd.read_sql_query("SELECT * FROM
workouts", conn)` inside `try/except Exception`, so every read failure —
missing file, missing table, and a corrupt database alike — yields the
empty frame; then date normalization. -/
def loadDataSqlite : DbState → Except PyError (List Row)
  | .missing => .ok []
  | .noTable => .ok []
  | .corrupt => .ok []
  | .workouts rows => .ok (rows.map normalizeRow)

/-- CSV branch of `save_row`: read the whole existing file (raising if
it is corrupt), concatenate the new row, rewrite the file in full. -/
def saveRowCsv : FileState → Row → Except PyError FileState
  | .missing, r => .ok (.csv [r])
  | .corrupt, _ => .error .parserError
  | .csv rows, r => .ok (.csv (rows ++ [r]))

/-- SQLite branch of `save_row`: `CREATE TABLE IF NOT EXISTS workouts`
then `INSERT` one row (no column constraints), committing; a corrupt
database makes the first statement raise. -/
def saveRowSqlite : DbState → Row → Except PyError DbState
  | .missing, r => .ok (.workouts [r])
  | .noTable, r => .ok (.workouts [r])
  | .corrupt, _ => .error .sqliteDatabaseError
  | .workouts rows, r => .ok (.workouts (rows ++ [r]))

/-- The storage backing the app: the `storage_type` selector together
with the state of the file at `storage_path`.  `file` is the
`storage_type == "CSV"` branch, `db` the SQLite branch. -/
inductive StoreState where
  | file (fs : FileState)
  | db (ds : DbState)
deriving DecidableEq, Repr

/-- `load_data(storage_type, path)`: dispatch on the storage type. -/
def load_data : StoreState → Except PyError (List Row)
  | .file fs => loadDataCsv fs
  | .db ds => loadDataSqlite ds

/-- `save_row(storage_type, path, row)`: dispatch on the storage type. -/
def save_row : StoreState → Row → Except PyError StoreState
  | .file fs, r => (saveRowCsv fs r).map .file
  | .db ds, r => (saveRowSqlite ds r).map .db

/-- Repeated `save_row` (each append as the app performs it, one
record per user action). -/
def appendAll : StoreState → List Row → Except PyError StoreState
  | s, [] => .ok s
  | s, r :: rest =>
    match save_row s r with
    | .ok s2 => appendAll s2 rest
    | .error e => .error e

/-- Outcome of the final `df_all.to_csv(p, index=False)` write in the
CSV branch of `save_row`.  `to_csv` opens the target for writing, which
truncates it in place before the data is written. -/
inductive WriteOutcome where
  | success
  | failDuringWrite
deriving DecidableEq, Repr

/-- CSV branch of `save_row` with the outcome of the final `to_csv`
write made explicit: a failure after the truncating open leaves the
target without its prior contents. -/
def saveRowCsvWrite (fs : FileState) (r : Row) (o : WriteOutcome) :
    FileState × Option PyError :=
  match fs with
  | .corrupt => (fs, some .parserError)   -- pd.read_csv raises first; file untouched
  | .missing =>
    match o with
    | .success => (.csv [r], none)
    | .failDuringWrite => (.corrupt, some .ioError)
  | .csv rows =>
    match o with
    | .success => (.csv (rows ++ [r]), none)
    | .failDuringWrite => (.corrupt, some .ioError)

end GymLog

namespace GymLog

/-- `add_week_columns`: pair every row with its `week_label` column
(the `week_start` Monday formatted `"%Y-%m-%d"`).  Empty input is
returned unchanged. -/
def addWeekColumns (rows : List Row) : List (Row × String) :=
  rows.map fun r => (r, weekLabel r.date)

/-- The "Total weekly volume" aggregation:
`df_week.groupby("week_label", as_index=False)["total_volume"].sum()
.sort_values("week_label")` — one output row per distinct `week_label`,
holding the sum of that group's `total_volume`, sorted ascending by
label. -/
def aggregateTotal (rows : List Row) : List (String × ℚ) :=
  let labelled := addWeekColumns rows
  let keys := (labelled.map fun p => p.2).dedup
  (keys.insertionSort (· ≤ ·)).map fun L =>
    (L, ((labelled.filter fun p => p.2 = L).map fun p => p.1.total_volume).sum)

/-- Lexicographic order on `(week_label, exercise)` keys: the order in
which `groupby(["week_label", "exercise"])` emits its groups. -/
def pairLe (p q : String × String) : Prop :=
  p.1 < q.1 ∨ (p.1 = q.1 ∧ p.2 ≤ q.2)

instance : DecidableRel pairLe := fun p q => by
  unfold pairLe; infer_instance

instance : IsTrans (String × String) pairLe where
  trans p q r hpq hqr := by
    rcases hpq with h1 | ⟨h1, h2⟩ <;> rcases hqr with h3 | ⟨h3, h4⟩
    · exact Or.inl (lt_trans h1 h3)
    · exact Or.inl (h3 ▸ h1)
    · exact Or.inl (h1 ▸ h3)
    · exact Or.inr ⟨h1.trans h3, le_trans h2 h4⟩

instance : IsTotal (String × String) pairLe where
  total p q := by
    rcases lt_trichotomy p.1 q.1 with h | h | h
    · exact Or.inl (Or.inl h)
    · rcases le_total p.2 q.2 with h2 | h2
      · exact Or.inl (Or.inr ⟨h, h2⟩)
      · exact Or.inr (Or.inr ⟨h.symm, h2⟩)
    · exact Or.inr (Or.inl h)

/-- The "Per-exercise weekly volume" aggregation:
`df_week.groupby(["week_label", "exercise"], as_index=False)
["total_volume"].sum().sort_values("week_label")` — one output row per
distinct `(week_label, exercise)` pair (exercise compared by exact
string equality), each holding its group's summed `total_volume`,
emitted in lexicographic key order, hence ascending by `week_label`. -/
def aggregateByExercise (rows : List Row) : List (String × String × ℚ) :=
  let labelled := addWeekColumns rows
  let keys := (labelled.map fun p => (p.2, p.1.exercise)).dedup
  (keys.insertionSort pairLe).map fun k =>
    (k.1, k.2,
      ((labelled.filter fun p => p.2 = k.1 ∧ p.1.exercise = k.2).map
        fun p => p.1.total_volume).sum)

/-- Python `str.strip()`: remove leading and trailing whitespace.
(Defined over the character list so that it evaluates structurally.) -/
def pyStrip (s : String) : String :=
  String.mk (((s.data.dropWhile Char.isWhitespace).reverse.dropWhile
    Char.isWhitespace).reverse)

/-- The validation block of the `workout_form` submit handler: collect
every violated rule's message, in source order.  `not exercise.strip()`
is the emptiness test after stripping. -/
def validate (exercise : String) (sets reps : Int) (weight : ℚ) : List String :=
  (if pyStrip exercise = "" then ["Exercise name is required."] else []) ++
  (if sets ≤ 0 then ["Sets must be greater than 0."] else []) ++
  (if reps ≤ 0 then ["Reps must be greater than 0."] else []) ++
  (if weight < 0 then ["Weight cannot be negative."] else [])

/-- The `new_row` dictionary built by the submit handler on successful
validation: `total_volume = sets * reps * weight`, computed once here. -/
def mkNewRow (workout_date : Date) (exercise : String) (sets reps : Int)
    (weight : ℚ) (weight_unit : String) : Row :=
  { date := workout_date
    exercise := pyStrip exercise
    sets := sets
    reps := reps
    weight := weight
    weight_unit := weight_unit
    total_volume := (sets : ℚ) * (reps : ℚ) * weight }

/-- Result of one form submission: the storage state afterwards, the
error messages shown (via `st.error`), and whether `save_row` was
invoked at all. -/
structure SubmitResult where
  state : StoreState
  messages : List String
  storageCalled : Bool
deriving DecidableEq, Repr

/-- The `workout_form` submit handler: validate; if any rule failed,
show all collected messages and do not touch storage; otherwise build
`new_row` and call `save_row` (a raised exception is shown as a
"Failed to save workout" message and leaves the previous state). -/
def submitForm (s : StoreState) (workout_date : Date) (exercise : String)
    (sets reps : Int) (weight : ℚ) (weight_unit : String) : SubmitResult :=
  let errors := validate exercise sets reps weight
  if errors = [] then
    match save_row s (mkNewRow workout_date exercise sets reps weight weight_unit) with
    | .ok s2 => ⟨s2, [], true⟩
    | .error _ => ⟨s, ["Failed to save workout"], true⟩
  else ⟨s, errors, false⟩

end GymLog

namespace GymLog

/-- Concrete record from the spec scenario: Squat 5×5 at 80 kg on
2024-05-06 (a Monday); volume 5·5·80 = 2000. -/
def exRow1 : Row :=
  { date := ⟨2024, 5, 6⟩, exercise := "Squat", sets := 5, reps := 5,
    weight := 80, weight_unit := "kg", total_volume := 2000 }

/-- Concrete record from the spec scenario: Squat 5×5 at 80 kg on
2024-05-08 (the Wednesday of the same week). -/
def exRow2 : Row :=
  { date := ⟨2024, 5, 8⟩, exercise := "Squat", sets := 5, reps := 5,
    weight := 80, weight_unit := "kg", total_volume := 2000 }

/-- Like `exRow1` but with the exercise name in lower case, to exhibit
case-sensitive grouping. -/
def exRowLower : Row :=
  { date := ⟨2024, 5, 6⟩, exercise := "squat", sets := 5, reps := 5,
    weight := 80, weight_unit := "kg", total_volume := 2000 }

/-- The one aggregate row produced by the per-exercise aggregation of
`[exRow1]`, with its group sum spelled out. -/
def exAggRow : String × String × ℚ :=
  ("2024-05-06", "Squat",
    (([exRow1].filter fun r =>
      weekLabel r.date = "2024-05-06" ∧ r.exercise = "Squat").map
        Row.total_volume).sum)

/-- A row violating every form-validation rule (and whose
`total_volume` is not `sets * reps * weight`), used to exhibit that the
storage layer itself does not validate. -/
def badRow : Row :=
  { date := ⟨2024, 5, 6⟩, exercise := "", sets := 0, reps := -3,
    weight := -5, weight_unit := "kg", total_volume := 999 }

/-! ### Helper lemmas -/

theorem normalizeRow_id (r : Row) : normalizeRow r = r := rfl

theorem normalizeRow_eq_id : normalizeRow = id := funext fun _ => rfl

theorem map_normalizeRow (l : List Row) : l.map normalizeRow = l := by
  rw [normalizeRow_eq_id, List.map_id]

/-- Every valid date is at least 306 days after the day-number epoch
0000-03-01 (the bound attained by 0001-01-01). -/
theorem toDays_lower (d : Date) (h : d.valid) : 306 ≤ toDays d := by
  obtain ⟨hy, hm1, hm2, hd1, hd2⟩ := h
  unfold toDays
  by_cases hmle : d.month ≤ 2
  · simp only [if_pos hmle]; omega
  · simp only [if_neg hmle]; omega

/-! ### C2: week bucketing -/

/-- C2.  Week bucketing: for every valid date the `week_start` value is
the Monday on or before it; two valid dates have equal `week_start`
exactly when they lie in the same Monday–Sunday span; dates 2024-05-05
(Sunday) and 2024-05-06 (Monday) fall in distinct buckets labelled
`2024-04-29` and `2024-05-06`; the year boundary 2023-12-31 (Sunday) /
2024-01-01 (Monday) also splits correctly. -/
theorem bucket_week_correct :
    (∀ d : Date, d.valid →
      isMondayDay (weekStartDays d) ∧ weekStartDays d ≤ toDays d ∧
        toDays d < weekStartDays d + 7) ∧
    (∀ d1 d2 : Date, d1.valid → d2.valid →
      (weekStartDays d1 = weekStartDays d2 ↔ sameWeek d1 d2)) ∧
    (weekLabel ⟨2024, 5, 5⟩ = "2024-04-29" ∧
      weekLabel ⟨2024, 5, 6⟩ = "2024-05-06" ∧
      weekStartDays ⟨2024, 5, 5⟩ ≠ weekStartDays ⟨2024, 5, 6⟩ ∧
      weekLabel ⟨2024, 5, 5⟩ ≠ weekLabel ⟨2024, 5, 6⟩) ∧
    (weekLabel ⟨2023, 12, 31⟩ = "2023-12-25" ∧
      weekLabel ⟨2024, 1, 1⟩ = "2024-01-01" ∧
      weekStartDays ⟨2023, 12, 31⟩ < weekStartDays ⟨2024, 1, 1⟩) := by
  refine ⟨?_, ?_, ?_, ?_⟩
  · intro d h
    have h306 := toDays_lower d h
    unfold isMondayDay weekStartDays weekday weekdayOfDays
    omega
  · intro d1 d2 h1 h2
    have g1 := toDays_lower d1 h1
    have g2 := toDays_lower d2 h2
    unfold sameWeek isMondayDay weekStartDays weekday weekdayOfDays
    constructor
    · intro heq
      exact ⟨toDays d1 - (toDays d1 + 2) % 7, by omega, by omega, by omega,
        by omega, by omega⟩
    · rintro ⟨m, hm, hle1, hlt1, hle2, hlt2⟩
      omega
  · exact ⟨by decide, by decide, by decide, by decide⟩
  · exact ⟨by decide, by decide, by decide⟩

/-- Witness for C2 at concrete dates: 2024-05-05 and 2024-05-08 are
valid; the Monday property and the bucket-equality criterion evaluate
there. -/
theorem bucket_week_correct_witness :
    Date.valid ⟨2024, 5, 5⟩ ∧ Date.valid ⟨2024, 5, 8⟩ ∧
      (isMondayDay (weekStartDays ⟨2024, 5, 5⟩) ∧
        weekStartDays ⟨2024, 5, 5⟩ ≤ toDays ⟨2024, 5, 5⟩ ∧
        toDays ⟨2024, 5, 5⟩ < weekStartDays ⟨2024, 5, 5⟩ + 7) ∧
      (weekStartDays ⟨2024, 5, 6⟩ = weekStartDays ⟨2024, 5, 8⟩ ↔
        sameWeek ⟨2024, 5, 6⟩ ⟨2024, 5, 8⟩) :=
  ⟨by decide, by decide,
    bucket_week_correct.1 ⟨2024, 5, 5⟩ (by decide),
    bucket_week_correct.2.1 ⟨2024, 5, 6⟩ ⟨2024, 5, 8⟩ (by decide) (by decide)⟩

end GymLog

namespace GymLog

/-- Loading a well-formed CSV store returns its rows unchanged. -/
theorem load_csv_rows (rows : List Row) :
    load_data (.file (.csv rows)) = .ok rows := by
  simp [load_data, loadDataCsv, map_normalizeRow]

/-- Loading a SQLite store with a populated `workouts` table returns
its rows unchanged. -/
theorem load_sql_rows (rows : List Row) :
    load_data (.db (.workouts rows)) = .ok rows := by
  simp [load_data, loadDataSqlite, map_normalizeRow]

/-- A successful `save_row` leaves a store whose `load_data` succeeds,
contains the new row, and retains everything the old store loaded. -/
theorem save_row_loaded (s s1 : StoreState) (r : Row)
    (h : save_row s r = .ok s1) :
    ∃ L1, load_data s1 = .ok L1 ∧ r ∈ L1 ∧
      ∀ L0, load_data s = .ok L0 → ∀ x ∈ L0, x ∈ L1 := by
  cases s with
  | file fs =>
    cases fs with
    | missing =>
      simp only [save_row, saveRowCsv, Except.map] at h
      cases h
      refine ⟨[r], load_csv_rows [r], by simp, ?_⟩
      intro L0 hL0 x hx
      simp only [load_data, loadDataCsv, Except.ok.injEq] at hL0
      subst hL0
      simp at hx
    | corrupt => simp [save_row, saveRowCsv, Except.map] at h
    | csv rows =>
      simp only [save_row, saveRowCsv, Except.map] at h
      cases h
      refine ⟨rows ++ [r], load_csv_rows _, by simp, ?_⟩
      intro L0 hL0 x hx
      rw [load_csv_rows rows] at hL0
      cases hL0
      simp [hx]
  | db ds =>
    cases ds with
    | missing =>
      simp only [save_row, saveRowSqlite, Except.map] at h
      cases h
      refine ⟨[r], load_sql_rows [r], by simp, ?_⟩
      intro L0 hL0 x hx
      simp only [load_data, loadDataSqlite, Except.ok.injEq] at hL0
      subst hL0
      simp at hx
    | noTable =>
      simp only [save_row, saveRowSqlite, Except.map] at h
      cases h
      refine ⟨[r], load_sql_rows [r], by simp, ?_⟩
      intro L0 hL0 x hx
      simp only [load_data, loadDataSqlite, Except.ok.injEq] at hL0
      subst hL0
      simp at hx
    | corrupt => simp [save_row, saveRowSqlite, Except.map] at h
    | workouts rows =>
      simp only [save_row, saveRowSqlite, Except.map] at h
      cases h
      refine ⟨rows ++ [r], load_sql_rows _, by simp, ?_⟩
      intro L0 hL0 x hx
      rw [load_sql_rows rows] at hL0
      cases hL0
      simp [hx]

/-- Contents already loadable from the store survive any successful run
of appends. -/
theorem appendAll_mono (rs : List Row) :
    ∀ s s2, appendAll s rs = .ok s2 →
      ∀ L0, load_data s = .ok L0 →
        ∃ L2, load_data s2 = .ok L2 ∧ ∀ x ∈ L0, x ∈ L2 := by
  induction rs with
  | nil =>
    intro s s2 h L0 hL0
    simp only [appendAll] at h
    cases h
    exact ⟨L0, hL0, fun x hx => hx⟩
  | cons r rest ih =>
    intro s s2 h L0 hL0
    simp only [appendAll] at h
    cases hsave : save_row s r with
    | error e => rw [hsave] at h; cases h
    | ok s1 =>
      rw [hsave] at h
      obtain ⟨L1, hL1, _, hkeep⟩ := save_row_loaded s s1 r hsave
      obtain ⟨L2, hL2, hsub⟩ := ih s1 s2 h L1 hL1
      exact ⟨L2, hL2, fun x hx => hsub x (hkeep L0 hL0 x hx)⟩

end GymLog

namespace GymLog

/-- C1.  Round trip for both backends: whenever a sequence of
`save_row` appends succeeds (starting from any store state, CSV or
SQLite), `load_data` on the resulting store succeeds and its result
contains every appended record — each loaded occurrence being the
date-normalized image of the stored row, which on date-only records is
the record itself. -/
theorem append_load_round_trip (s : StoreState) (rs : List Row)
    (s2 : StoreState) (h : appendAll s rs = .ok s2) :
    ∀ r ∈ rs, ∃ L, load_data s2 = .ok L ∧ normalizeRow r ∈ L ∧ r ∈ L := by
  induction rs generalizing s with
  | nil => intro r hr; simp at hr
  | cons q rest ih =>
    intro r hr
    simp only [appendAll] at h
    cases hsave : save_row s q with
    | error e => rw [hsave] at h; cases h
    | ok s1 =>
      rw [hsave] at h
      rcases List.mem_cons.mp hr with rfl | hrest
      · obtain ⟨L1, hL1, hmem, _⟩ := save_row_loaded s s1 r hsave
        obtain ⟨L2, hL2, hsub⟩ := appendAll_mono rest s1 s2 h L1 hL1
        exact ⟨L2, hL2, by rw [normalizeRow_id]; exact hsub r hmem, hsub r hmem⟩
      · exact ih s1 h r hrest

/-- Witness for C1: two concrete records appended to each fresh
backend are both loadable afterwards. -/
theorem append_load_round_trip_witness :
    (appendAll (.file .missing) [exRow1, exRow2] =
        .ok (.file (.csv [exRow1, exRow2])) ∧
      exRow1 ∈ [exRow1, exRow2] ∧
      ∃ L, load_data (.file (.csv [exRow1, exRow2])) = .ok L ∧
        normalizeRow exRow1 ∈ L ∧ exRow1 ∈ L) ∧
    (appendAll (.db .missing) [exRow1, exRow2] =
        .ok (.db (.workouts [exRow1, exRow2])) ∧
      exRow2 ∈ [exRow1, exRow2] ∧
      ∃ L, load_data (.db (.workouts [exRow1, exRow2])) = .ok L ∧
        normalizeRow exRow2 ∈ L ∧ exRow2 ∈ L) :=
  ⟨⟨rfl, by decide,
      append_load_round_trip (.file .missing) [exRow1, exRow2] _ rfl
        exRow1 (by decide)⟩,
    ⟨rfl, by decide,
      append_load_round_trip (.db .missing) [exRow1, exRow2] _ rfl
        exRow2 (by decide)⟩⟩

end GymLog

namespace GymLog

/-- C5.  First-run state: loading when the CSV file does not exist,
when the SQLite database file does not exist, or when the database
exists but has no `workouts` table, returns the empty sequence and is
not an error. -/
theorem load_missing_empty :
    load_data (.file .missing) = .ok [] ∧
      load_data (.db .missing) = .ok [] ∧
      load_data (.db .noTable) = .ok [] :=
  ⟨rfl, rfl, rfl⟩

/-- C7 counterexample: a present-but-corrupt SQLite database is a read
failure other than nonexistence, yet `load_data` silently returns an
empty result instead of surfacing a `StorageReadError` (the
`except Exception` handler swallows it). -/
theorem load_corrupt_db_silent :
    load_data (.db .corrupt) = .ok [] ∧
      load_data (.db .corrupt) ≠ .error .storageReadError :=
  ⟨rfl, by simp [load_data, loadDataSqlite]⟩

/-- C7 amended: on the SQLite backend every read failure — corrupt
database included — is swallowed and `load_data` returns the empty
sequence; on the CSV backend a corrupt file raises the underlying
pandas parse error, which is not a `StorageReadError` (no such error
class exists in the code). -/
theorem load_corrupt_behaviour :
    load_data (.db .corrupt) = .ok [] ∧
      load_data (.file .corrupt) = .error .parserError ∧
      PyError.parserError ≠ PyError.storageReadError :=
  ⟨rfl, rfl, by decide⟩

/-- C6 counterexample: with one record already stored in the CSV file,
an I/O failure during the `to_csv` rewrite leaves the target truncated
(prior data lost, state changed) and the surfaced error is the raw
`OSError`, not a `StorageWriteError`. -/
theorem save_fail_truncates :
    saveRowCsvWrite (.csv [exRow1]) exRow2 .failDuringWrite =
        (.corrupt, some .ioError) ∧
      FileState.corrupt ≠ FileState.csv [exRow1] ∧
      PyError.ioError ≠ PyError.storageWriteError :=
  ⟨rfl, by decide, by decide⟩

/-- C6 amended: append failures surface the underlying library
exception (never a `StorageWriteError`); a failure occurring before the
rewrite begins (corrupt existing CSV; corrupt SQLite database) leaves
existing data unmodified, but because the CSV backend truncates the
target in place, a failure during the rewrite itself loses all prior
rows; the SQLite backend appends inside a transaction and a successful
insert preserves the prior rows exactly. -/
theorem save_failure_behaviour :
    (∀ (rows : List Row) (r : Row),
      saveRowCsvWrite (.csv rows) r .failDuringWrite =
        (.corrupt, some .ioError)) ∧
    (∀ (r : Row) (o : WriteOutcome),
      saveRowCsvWrite .corrupt r o = (.corrupt, some .parserError)) ∧
    (∀ r : Row, saveRowSqlite .corrupt r = .error .sqliteDatabaseError) ∧
    (∀ (rows : List Row) (r : Row) (ds : DbState),
      saveRowSqlite (.workouts rows) r = .ok ds →
        ds = .workouts (rows ++ [r])) ∧
    (∀ (fs : FileState) (r : Row) (o : WriteOutcome),
      (saveRowCsvWrite fs r o).2 ≠ some .storageWriteError) := by
  refine ⟨fun rows r => rfl, fun r o => rfl, fun r => rfl, ?_, ?_⟩
  · intro rows r ds h
    simp only [saveRowSqlite, Except.ok.injEq] at h
    exact h.symm
  · intro fs r o
    cases fs <;> cases o <;> simp [saveRowCsvWrite]

/-- Witness for C6 (amended): the SQLite preservation conjunct applied
to a concrete successful insert. -/
theorem save_failure_behaviour_witness :
    saveRowSqlite (.workouts [exRow1]) exRow2 =
        .ok (.workouts [exRow1, exRow2]) ∧
      DbState.workouts [exRow1, exRow2] = .workouts ([exRow1] ++ [exRow2]) :=
  ⟨rfl, save_failure_behaviour.2.2.2.1 [exRow1] exRow2
    (.workouts [exRow1, exRow2]) rfl⟩

end GymLog

namespace GymLog

/-- C10.  `save_row` validates nothing: on a healthy backend it
persists any row with the seven schema fields unchanged — an empty
exercise name, non-positive sets/reps, negative weight, and a
`total_volume` unrelated to `sets * reps * weight` included — because
the record-validity rules live only in the form path before `save_row`
is called. -/
theorem save_row_no_validation :
    (∀ (rows : List Row) (r : Row),
      saveRowCsv (.csv rows) r = .ok (.csv (rows ++ [r]))) ∧
    (∀ r : Row, saveRowCsv .missing r = .ok (.csv [r])) ∧
    (∀ (rows : List Row) (r : Row),
      saveRowSqlite (.workouts rows) r = .ok (.workouts (rows ++ [r]))) ∧
    (∀ r : Row, saveRowSqlite .noTable r = .ok (.workouts [r])) ∧
    (save_row (.file .missing) badRow = .ok (.file (.csv [badRow])) ∧
      load_data (.file (.csv [badRow])) = .ok [badRow] ∧
      validate badRow.exercise badRow.sets badRow.reps badRow.weight ≠ [] ∧
      badRow.total_volume ≠
        (badRow.sets : ℚ) * (badRow.reps : ℚ) * badRow.weight) := by
  refine ⟨fun rows r => rfl, fun r => rfl, fun rows r => rfl, fun r => rfl,
    rfl, load_csv_rows [badRow], ?_, ?_⟩
  · decide
  · norm_num [badRow]

end GymLog

namespace GymLog

/-- When validation produces any message, the submit handler shows
exactly those messages, leaves the store untouched, and never calls
`save_row`. -/
theorem submitForm_invalid (s : StoreState) (d : Date) (ex : String)
    (sets reps : Int) (w : ℚ) (u : String)
    (h : validate ex sets reps w ≠ []) :
    submitForm s d ex sets reps w u = ⟨s, validate ex sets reps w, false⟩ := by
  unfold submitForm
  simp [h]

/-- C4.  Every record built by the form handler stores
`total_volume = sets * reps * weight`, computed once at creation; the
value is persisted and loaded back unaltered, never recomputed or
edited. -/
theorem total_volume_formula :
    (∀ (d : Date) (ex : String) (sets reps : Int) (w : ℚ) (u : String),
      (mkNewRow d ex sets reps w u).total_volume = (sets : ℚ) * (reps : ℚ) * w ∧
      (mkNewRow d ex sets reps w u).total_volume =
        ((mkNewRow d ex sets reps w u).sets : ℚ) *
          ((mkNewRow d ex sets reps w u).reps : ℚ) *
          (mkNewRow d ex sets reps w u).weight) ∧
    (∀ (s s2 : StoreState) (d : Date) (ex : String) (sets reps : Int)
        (w : ℚ) (u : String),
      save_row s (mkNewRow d ex sets reps w u) = .ok s2 →
        ∃ L, load_data s2 = .ok L ∧
          mkNewRow d ex sets reps w u ∈ L ∧
          (mkNewRow d ex sets reps w u).total_volume =
            ((mkNewRow d ex sets reps w u).sets : ℚ) *
              ((mkNewRow d ex sets reps w u).reps : ℚ) *
              (mkNewRow d ex sets reps w u).weight) := by
  refine ⟨fun d ex sets reps w u => ⟨rfl, rfl⟩, ?_⟩
  intro s s2 d ex sets reps w u h
  obtain ⟨L, hL, hmem, _⟩ := save_row_loaded s s2 (mkNewRow d ex sets reps w u) h
  exact ⟨L, hL, hmem, rfl⟩

/-- Witness for C4: a concrete valid submission (Squat, 5×5 at 80 kg)
appended to a fresh CSV store. -/
theorem total_volume_formula_witness :
    save_row (.file .missing) (mkNewRow ⟨2024, 5, 6⟩ "Squat" 5 5 80 "kg") =
        .ok (.file (.csv [mkNewRow ⟨2024, 5, 6⟩ "Squat" 5 5 80 "kg"])) ∧
      ∃ L, load_data (.file (.csv [mkNewRow ⟨2024, 5, 6⟩ "Squat" 5 5 80 "kg"])) =
            .ok L ∧
          mkNewRow ⟨2024, 5, 6⟩ "Squat" 5 5 80 "kg" ∈ L ∧
          (mkNewRow ⟨2024, 5, 6⟩ "Squat" 5 5 80 "kg").total_volume =
            ((mkNewRow ⟨2024, 5, 6⟩ "Squat" 5 5 80 "kg").sets : ℚ) *
              ((mkNewRow ⟨2024, 5, 6⟩ "Squat" 5 5 80 "kg").reps : ℚ) *
              (mkNewRow ⟨2024, 5, 6⟩ "Squat" 5 5 80 "kg").weight :=
  ⟨rfl, total_volume_formula.2 (.file .missing) _ ⟨2024, 5, 6⟩ "Squat" 5 5 80 "kg" rfl⟩

/-- C9.  Input validation: an empty (post-strip) exercise name,
non-positive sets, non-positive reps, and negative weight are each
reported; all violations are reported together; any violation leaves
the store untouched with `save_row` never called; submitting
`exercise = ""` with `sets = 0` yields exactly the two distinct
messages and no storage call. -/
theorem validation_before_storage :
    (∀ (ex : String) (sets reps : Int) (w : ℚ),
      (pyStrip ex = "" → "Exercise name is required." ∈ validate ex sets reps w) ∧
      (sets ≤ 0 → "Sets must be greater than 0." ∈ validate ex sets reps w) ∧
      (reps ≤ 0 → "Reps must be greater than 0." ∈ validate ex sets reps w) ∧
      (w < 0 → "Weight cannot be negative." ∈ validate ex sets reps w)) ∧
    (∀ (s : StoreState) (d : Date) (ex : String) (sets reps : Int)
        (w : ℚ) (u : String),
      validate ex sets reps w ≠ [] →
        submitForm s d ex sets reps w u = ⟨s, validate ex sets reps w, false⟩) ∧
    (∀ (s : StoreState) (d : Date) (u : String),
      submitForm s d "" 0 10 20 u =
        ⟨s, ["Exercise name is required.", "Sets must be greater than 0."], false⟩) ∧
    "Exercise name is required." ≠ "Sets must be greater than 0." := by
  refine ⟨?_, submitForm_invalid, ?_, by decide⟩
  · intro ex sets reps w
    refine ⟨fun h => ?_, fun h => ?_, fun h => ?_, fun h => ?_⟩ <;>
      simp [validate, h]
  · intro s d u
    rw [submitForm_invalid s d "" 0 10 20 u (by decide)]
    have : validate "" 0 10 20 =
        ["Exercise name is required.", "Sets must be greater than 0."] := by decide
    rw [this]

/-- Witness for C9: the rule hypotheses discharged at
`exercise = ""`, `sets = 0`, `reps = 10`, `weight = 20` on a fresh CSV
store. -/
theorem validation_before_storage_witness :
    (pyStrip "" = "" ∧
      "Exercise name is required." ∈ validate "" 0 10 20) ∧
    ((0 : Int) ≤ 0 ∧
      "Sets must be greater than 0." ∈ validate "" 0 10 20) ∧
    (validate "" 0 10 20 ≠ [] ∧
      submitForm (.file .missing) ⟨2024, 5, 6⟩ "" 0 10 20 "kg" =
        ⟨.file .missing, validate "" 0 10 20, false⟩) :=
  ⟨⟨rfl, (validation_before_storage.1 "" 0 10 20).1 rfl⟩,
    ⟨le_refl 0, (validation_before_storage.1 "" 0 10 20).2.1 (le_refl 0)⟩,
    ⟨by decide, validation_before_storage.2.1 (.file .missing) ⟨2024, 5, 6⟩ ""
      0 10 20 "kg" (by decide)⟩⟩

end GymLog

namespace GymLog

/-- Mapping a constant-valued function over a nonempty list and
deduplicating yields exactly that one value. -/
theorem dedup_map_const {α β : Type} [DecidableEq β] (f : α → β) (L : β) :
    ∀ l : List α, l ≠ [] → (∀ x ∈ l, f x = L) → (l.map f).dedup = [L] := by
  intro l
  induction l with
  | nil => intro h; exact absurd rfl h
  | cons a t ih =>
    intro _ hall
    cases t with
    | nil => simp [hall a (by simp)]
    | cons b t2 =>
      have ht : ((b :: t2).map f).dedup = [L] :=
        ih (by simp) (fun x hx => hall x (List.mem_cons_of_mem a hx))
      have hfa : f a = L := hall a (by simp)
      have hfb : f b = L := hall b (by simp)
      have hmem : f a ∈ (b :: t2).map f := by
        rw [hfa, ← hfb]; exact List.mem_map_of_mem f (by simp)
      rw [List.map_cons, List.dedup_cons_of_mem hmem, ht]

/-- `groupby` over a single group: when every row carries the same
`week_label`, the total aggregation is one row summing everything. -/
theorem aggregateTotal_single_week (rows : List Row) (L : String)
    (hne : rows ≠ []) (hall : ∀ r ∈ rows, weekLabel r.date = L) :
    aggregateTotal rows = [(L, (rows.map Row.total_volume).sum)] := by
  simp only [aggregateTotal, addWeekColumns]
  have hkeys :
      ((rows.map fun r => (r, weekLabel r.date)).map fun p => p.2).dedup = [L] := by
    rw [List.map_map]
    exact dedup_map_const _ L rows hne hall
  rw [hkeys]
  have hfilter :
      ((rows.map fun r => (r, weekLabel r.date)).filter fun p => p.2 = L) =
        rows.map fun r => (r, weekLabel r.date) := by
    rw [List.filter_eq_self]
    intro p hp
    obtain ⟨r, hr, rfl⟩ := List.mem_map.mp hp
    simp [hall r hr]
  simp only [List.insertionSort, List.orderedInsert, hfilter, List.map_map,
    List.map_cons, List.map_nil]
  have hcomp : ((fun p : Row × String => p.1.total_volume) ∘
      fun r : Row => (r, weekLabel r.date)) = Row.total_volume := rfl
  rw [hcomp]

/-- The total aggregation is sorted ascending by `week_label`. -/
theorem aggregateTotal_sorted (rows : List Row) :
    (aggregateTotal rows).Pairwise fun a b => a.1 ≤ b.1 := by
  simp only [aggregateTotal, addWeekColumns]
  have h := List.sorted_insertionSort (α := String) (· ≤ ·)
    ((rows.map fun r => (r, weekLabel r.date)).map fun p => p.2).dedup
  exact h.map _ (fun a b hab => hab)

/-- C3.  Total-weekly aggregation: empty input gives an empty result;
rows all in one Monday–Sunday week give exactly one output row whose
volume is the sum of all; output is sorted ascending by `week_label`;
and the spec's concrete scenario (two Squat 5×5×80 records on
2024-05-06 and 2024-05-08) aggregates to the single row
`("2024-05-06", 4000)`. -/
theorem aggregate_total_correct :
    (aggregateTotal [] = []) ∧
    (∀ (rows : List Row) (L : String), rows ≠ [] →
      (∀ r ∈ rows, weekLabel r.date = L) →
      aggregateTotal rows = [(L, (rows.map Row.total_volume).sum)]) ∧
    (∀ rows : List Row, (aggregateTotal rows).Pairwise fun a b => a.1 ≤ b.1) ∧
    (appendAll (.file .missing) [exRow1, exRow2] =
        .ok (.file (.csv [exRow1, exRow2])) ∧
      load_data (.file (.csv [exRow1, exRow2])) = .ok [exRow1, exRow2] ∧
      aggregateTotal [exRow1, exRow2] = [("2024-05-06", 4000)]) := by
  refine ⟨rfl, aggregateTotal_single_week, aggregateTotal_sorted,
    rfl, load_csv_rows _, ?_⟩
  rw [aggregateTotal_single_week [exRow1, exRow2] "2024-05-06" (by decide)
    (by decide)]
  norm_num [exRow1, exRow2]

/-- Witness for C3: the single-week conjunct applied to the one-record
list, its hypotheses discharged concretely. -/
theorem aggregate_total_correct_witness :
    [exRow1] ≠ ([] : List Row) ∧
      weekLabel exRow1.date = "2024-05-06" ∧
      aggregateTotal [exRow1] =
        [("2024-05-06", ([exRow1].map Row.total_volume).sum)] :=
  ⟨by decide, by decide,
    aggregate_total_correct.2.1 [exRow1] "2024-05-06" (by decide) (by decide)⟩

end GymLog

namespace GymLog

/-- The per-exercise aggregation output is sorted ascending by
`week_label` (first component). -/
theorem aggregateByExercise_sorted (rows : List Row) :
    (aggregateByExercise rows).Pairwise fun a b => a.1 ≤ b.1 := by
  simp only [aggregateByExercise, addWeekColumns]
  have h := List.sorted_insertionSort (α := String × String) pairLe
    (((rows.map fun r => (r, weekLabel r.date)).map
      fun p => (p.2, p.1.exercise)).dedup)
  refine h.map _ (fun a b hab => ?_)
  rcases hab with h1 | ⟨h1, _⟩
  · exact le_of_lt h1
  · exact le_of_eq h1

/-- C8.  Per-exercise weekly aggregation: one output row per distinct
`(week_label, exercise)` pair (the output's key list is a permutation
of the deduplicated pairs, so the row count is the number of distinct
pairs); each row's volume is its group's sum; output is sorted
ascending by `week_label`; and grouping compares exercise names
case-sensitively — `"Squat"` and `"squat"` in the same week form two
groups. -/
theorem aggregate_by_exercise_correct :
    (∀ rows : List Row,
      (aggregateByExercise rows).length =
        ((rows.map fun r => (weekLabel r.date, r.exercise)).dedup).length) ∧
    (∀ rows : List Row,
      ((aggregateByExercise rows).map fun p => (p.1, p.2.1)).Perm
        ((rows.map fun r => (weekLabel r.date, r.exercise)).dedup)) ∧
    (∀ rows : List Row, ∀ p ∈ aggregateByExercise rows,
      p.2.2 = ((rows.filter fun r =>
        weekLabel r.date = p.1 ∧ r.exercise = p.2.1).map Row.total_volume).sum) ∧
    (∀ rows : List Row,
      (aggregateByExercise rows).Pairwise fun a b => a.1 ≤ b.1) ∧
    (((aggregateByExercise [exRow1, exRowLower]).map fun p => (p.1, p.2.1)) =
        [("2024-05-06", "Squat"), ("2024-05-06", "squat")] ∧
      "Squat" ≠ "squat") := by
  refine ⟨?_, ?_, ?_, aggregateByExercise_sorted, ?_, by decide⟩
  · intro rows
    simp only [aggregateByExercise, addWeekColumns, List.length_map,
      List.length_insertionSort, List.map_map]
    rfl
  · intro rows
    simp only [aggregateByExercise, addWeekColumns]
    rw [List.map_map]
    have hproj : ((fun p : String × String × ℚ => (p.1, p.2.1)) ∘
        fun k : String × String => (k.1, k.2,
          (((rows.map fun r => (r, weekLabel r.date)).filter
            fun q => q.2 = k.1 ∧ q.1.exercise = k.2).map
              fun q => q.1.total_volume).sum)) = id := rfl
    rw [hproj, List.map_id, List.map_map]
    exact List.perm_insertionSort pairLe _
  · intro rows p hp
    simp only [aggregateByExercise, addWeekColumns, List.mem_map] at hp
    obtain ⟨k, _, rfl⟩ := hp
    rw [List.filter_map, List.map_map]
    rfl
  · have hlt : ("Squat" : String) < "squat" := by
      rw [String.lt_iff_toList_lt]; decide
    have hp : pairLe ("2024-05-06", "Squat") ("2024-05-06", "squat") :=
      Or.inr ⟨rfl, le_of_lt hlt⟩
    have hkeys : (([exRow1, exRowLower].map fun r => (r, weekLabel r.date)).map
        fun p => (p.2, p.1.exercise)).dedup =
          [("2024-05-06", "Squat"), ("2024-05-06", "squat")] := by decide
    have hsorted : List.insertionSort pairLe
        [("2024-05-06", "Squat"), ("2024-05-06", "squat")] =
          [("2024-05-06", "Squat"), ("2024-05-06", "squat")] := by
      simp only [List.insertionSort, List.orderedInsert_nil]
      exact List.orderedInsert_of_le pairLe [] hp
    simp only [aggregateByExercise, addWeekColumns]
    rw [hkeys, hsorted]
    rfl

/-- Witness for C8: the group-sum conjunct applied to the single
aggregate row of `aggregateByExercise [exRow1]`, its membership
hypothesis discharged definitionally. -/
theorem aggregate_by_exercise_correct_witness :
    exAggRow ∈ aggregateByExercise [exRow1] ∧
      exAggRow.2.2 = (([exRow1].filter fun r =>
        weekLabel r.date = exAggRow.1 ∧ r.exercise = exAggRow.2.1).map
          Row.total_volume).sum :=
  have hmem : exAggRow ∈ aggregateByExercise [exRow1] := List.Mem.head []
  ⟨hmem, aggregate_by_exercise_correct.2.2.1 [exRow1] exAggRow hmem⟩

end GymLog
